import Mathlib

/-!
Shallow embedding of `addimage.py` (PrettyPapers): a PDF re-styler that, for
every source page, draws a synthesized background, then the page's raster
images, vector drawings and text spans onto a fresh output page, and finally
saves the output document once.

External collaborators (PyMuPDF page canvas, PIL imaging, the content
extractor) are modelled as follows: the page canvas records the sequence of
draw operations (`DrawOp`); extracted page content is the structured data the
Python code reads from the extractor's dictionaries; images are pixel grids
(`Img`); fallible geometry constructors of the canvas are `Option`-valued.
-/

namespace PrettyPapers

/-- An RGB color as a triple of rationals in the unit interval
(the Python code works with float triples in 0..1). -/
abbrev Color := ℚ × ℚ × ℚ

/-- `int_to_rgb_float` from `addimage.py` lines 7-14: `None` maps to white;
an integer is unpacked as 0x00RRGGBB, each byte divided by 255. -/
def int_to_rgb_float : Option ℕ → Color
  | none => (1, 1, 1)
  | some color_int =>
      let blue : ℚ := ((color_int &&& 255 : ℕ) : ℚ) / 255
      let green : ℚ := (((color_int >>> 8) &&& 255 : ℕ) : ℚ) / 255
      let red : ℚ := (((color_int >>> 16) &&& 255 : ℕ) : ℚ) / 255
      (red, green, blue)

/-- Whether `pat` matches the front of a character list. -/
def leadMatch : List Char → List Char → Bool
  | [], _ => true
  | _ :: _, [] => false
  | a :: as, b :: bs => a == b && leadMatch as bs

/-- Python substring containment `pat in s`, on character lists: `pat`
occurs contiguously somewhere in `s`. -/
def hasSub (pat : List Char) : List Char → Bool
  | [] => leadMatch pat []
  | c :: rest => leadMatch pat (c :: rest) || hasSub pat rest

/-- `map_font` from `addimage.py` lines 26-35: lowercase the name, then match
substrings "bold" / "italic" / "oblique" to pick a Times-family font. Python
`x in f` is substring containment, modelled on the character list. -/
def map_font (pdf_font_name : String) : String :=
  let f : List Char := pdf_font_name.toList.map Char.toLower
  if hasSub "bold".toList f ∧ (hasSub "italic".toList f ∨ hasSub "oblique".toList f) then
    "Times-BoldItalic"
  else if hasSub "bold".toList f then
    "Times-Bold"
  else if hasSub "italic".toList f ∨ hasSub "oblique".toList f then
    "Times-Italic"
  else
    "Times-Roman"

/-- Tolerance `epsilon = 5.0 / 255.0` from `addimage.py` line 123. -/
def epsilon : ℚ := 5 / 255

/-- `is_non_black` from `addimage.py` line 124:
`any(ch > epsilon for ch in orig_color)`. -/
def is_non_black (c : Color) : Bool :=
  decide (epsilon < c.1) || decide (epsilon < c.2.1) || decide (epsilon < c.2.2)

/-- The render-color decision of `addimage.py` lines 127-130: keep the
original color when it is non-black, otherwise force white. -/
def chooseColor (orig_color : Color) : Color :=
  if is_non_black orig_color then orig_color else (1, 1, 1)

/-- A 2D point (PyMuPDF `fitz.Point`). -/
structure Point where
  x : ℚ
  y : ℚ
deriving DecidableEq

/-- A rectangle (PyMuPDF `fitz.Rect`). -/
structure Rect where
  x0 : ℚ
  y0 : ℚ
  x1 : ℚ
  y1 : ℚ
deriving DecidableEq

/-- A text span as extracted by `page.get_text("dict")`: the fields of the
span dictionary that `addimage.py` lines 113-150 read. Optional fields model
Python `span.get(key, default)` reads: `color` defaults to 0, `matrix`
defaults to the identity. -/
structure Span where
  text : String
  size : ℚ
  font : String
  color : Option ℕ
  origin : Point
  bbox : Rect
  matrix : Option (ℚ × ℚ × ℚ × ℚ × ℚ × ℚ)
deriving DecidableEq

/-- A line of a text block: its list of spans. -/
structure Line where
  spans : List Span
deriving DecidableEq

/-- A block of `page.get_text("dict")["blocks"]`: type tag (1 = image
block), optional image xref, bounding box, and the lines of a text block
(`blk.get("lines", [])` defaults to empty). -/
structure Block where
  type : ℕ
  xref : Option ℕ
  bbox : Rect
  lines : List Line
deriving DecidableEq

/-- The point-list payload of a path-segment item: either an actual
list/tuple of points, or some other Python value (failing the
`isinstance(pts, (list, tuple))` guards). -/
inductive PtsVal
  | plist (ps : List Point)
  | nonSeq
deriving DecidableEq

/-- One entry of a drawing's `"items"` list as the loop of `addimage.py`
lines 83-107 reads it: `tag = item[0] if len(item) > 0 else None`,
`pts = item[1] if len(item) > 1 else []`. -/
structure SegItem where
  tag : Option String
  pts : PtsVal
deriving DecidableEq

/-- The polymorphic `d.get("color")` value of a drawing group: absent, an
(r,g,b) tuple/list, a packed integer, or any other Python value. -/
inductive ColorVal
  | absent
  | triplet (r g b : ℚ)
  | packed (n : ℕ)
  | other
deriving DecidableEq

/-- A drawing group of `page.get_drawings()`: stroke color, the `"width"`
and `"linewidth"` fields (optional), and the path-segment items. -/
structure Drawing where
  color : ColorVal
  width : Option ℚ
  linewidth : Option ℚ
  items : List SegItem
deriving DecidableEq

/-- A source page's extracted content: dimensions, text/image blocks,
drawing groups and hyperlink rects, as read by `stylise_pdf`. -/
structure SrcPage where
  width : ℚ
  height : ℚ
  blocks : List Block
  drawings : List Drawing
  links : List Rect
deriving DecidableEq

/-- `fitz.TEXT_ALIGN_LEFT`. -/
def fitz_TEXT_ALIGN_LEFT : ℕ := 0

/-- One draw operation recorded on the output page canvas, in emission
order. The background insert is `insert_image(..., overlay=False)`; raster
images are `insert_image(..., overlay=True)` carrying the xref whose bytes
the extractor fetches. -/
inductive DrawOp
  | insertBgImage (r : Rect)
  | insertImage (r : Rect) (xref : ℕ)
  | drawLine (p1 p2 : Point) (color : Color) (width : ℚ)
  | drawRect (r : Rect) (color : Color) (fill : Option Color) (width : ℚ)
  | drawPolyline (ps : List Point) (color : Color) (width : ℚ)
  | drawBezier (ps : List Point) (color : Color) (width : ℚ)
  | insertTextbox (r : Rect) (text : String) (font : String) (size : ℚ)
      (color : Color) (rotate : ℤ) (align : ℕ)
  | insertText (origin : Point) (text : String) (font : String) (size : ℚ)
      (color : Color)
deriving DecidableEq

/-- Stroke-color resolution of `addimage.py` lines 73-81. -/
def resolveDrawColor : ColorVal → Color
  | ColorVal.absent => (1, 1, 1)
  | ColorVal.triplet r g b => (r, g, b)
  | ColorVal.packed n => int_to_rgb_float (some n)
  | ColorVal.other => (1, 1, 1)

/-- Stroke-width resolution of `addimage.py` line 82:
`d.get("width", d.get("linewidth", 1.0))`. -/
def resolveDrawWidth (d : Drawing) : ℚ :=
  d.width.getD (d.linewidth.getD 1)

/-- Modelled from the spec: `fitz.Rect(pts)` construction by the external
page-canvas library, which expects rect-defining points and raises on
malformed point sets (the exception is caught at the call site and the
segment skipped). Two corner points define the rectangle; any other point
count is malformed. -/
def mkRect : List Point → Option Rect
  | [p1, p2] => some ⟨p1.x, p1.y, p2.x, p2.y⟩
  | _ => none

/-- Modelled from the spec: `draw_polyline` of the external page canvas
draws a connected open polyline through the points and raises on malformed
input (caught at the call site); fewer than two points is malformed. -/
def mkPolylineOp (ps : List Point) (color : Color) (width : ℚ) : Option DrawOp :=
  if 2 ≤ ps.length then some (DrawOp.drawPolyline ps color width) else none

/-- Modelled from the spec: `draw_bezier` of the external page canvas draws
a curve through the control points and raises on malformed input (caught at
the call site); a cubic bezier needs exactly four control points. -/
def mkBezierOp (ps : List Point) (color : Color) (width : ℚ) : Option DrawOp :=
  if ps.length = 4 then some (DrawOp.drawBezier ps color width) else none

/-- The per-segment dispatch of `addimage.py` lines 83-107: lines need two
points; rectangles go through fallible `fitz.Rect` construction with width
floored at 0.5 and no fill; polylines/quads and beziers go through their
fallible constructors; every failure or unknown tag yields no operation. -/
def renderSeg (color : Color) (width : ℚ) (it : SegItem) : Option DrawOp :=
  match it.tag, it.pts with
  | some "l", PtsVal.plist (p1 :: p2 :: _) => some (DrawOp.drawLine p1 p2 color width)
  | some "L", PtsVal.plist (p1 :: p2 :: _) => some (DrawOp.drawLine p1 p2 color width)
  | some "re", PtsVal.plist ps =>
      (mkRect ps).map (fun r => DrawOp.drawRect r color none (max (1/2) width))
  | some "qu", PtsVal.plist ps => mkPolylineOp ps color width
  | some "p", PtsVal.plist ps => mkPolylineOp ps color width
  | some "c", PtsVal.plist ps => mkBezierOp ps color width
  | some "be", PtsVal.plist ps => mkBezierOp ps color width
  | some "b", PtsVal.plist ps => mkBezierOp ps color width
  | _, _ => none

/-- The vector phase for one drawing group (`addimage.py` lines 71-107). -/
def renderDrawing (d : Drawing) : List DrawOp :=
  d.items.filterMap (renderSeg (resolveDrawColor d.color) (resolveDrawWidth d))

/-- The image phase for one block (`addimage.py` lines 58-68): only image
blocks (type 1) with a truthy xref produce an insert (Python `if not xref`
skips both a missing and a zero xref). -/
def renderImageBlock (b : Block) : Option DrawOp :=
  if b.type = 1 then
    match b.xref with
    | none => none
    | some x => if x = 0 then none else some (DrawOp.insertImage b.bbox x)
  else none

/-- The span render color of `addimage.py` lines 119-130: decode
`span.get("color", 0)` and apply the near-black inversion. -/
def spanRenderColor (s : Span) : Color :=
  chooseColor (int_to_rgb_float (some (s.color.getD 0)))

/-- The text phase for one span (`addimage.py` lines 113-150): rotation
detection on the matrix shear component (`matrix[1]`, defaulting to the
identity matrix), emitting a rotated textbox or plain horizontal text. -/
def renderSpan (s : Span) : DrawOp :=
  let font := map_font s.font
  let color := spanRenderColor s
  let matrix := s.matrix.getD (1, 0, 0, 1, 0, 0)
  if 1/1000 < |matrix.2.1| then
    let angle : ℤ := if 0 < matrix.2.1 then 90 else -90
    DrawOp.insertTextbox s.bbox s.text font s.size color angle fitz_TEXT_ALIGN_LEFT
  else
    DrawOp.insertText s.origin s.text font s.size color

/-- The text phase over all blocks (`addimage.py` lines 113-150). -/
def renderText (blocks : List Block) : List DrawOp :=
  blocks.flatMap fun blk => blk.lines.flatMap fun line => line.spans.map renderSpan

/-- `page.rect` of a page with the given dimensions. -/
def pageRect (p : SrcPage) : Rect := ⟨0, 0, p.width, p.height⟩

/-- The full draw-operation sequence one source page produces on its output
page (`addimage.py` lines 43-150): background insert first, then the image
phase, the vector phase, and the text phase, in that order. -/
def renderPage (p : SrcPage) : List DrawOp :=
  DrawOp.insertBgImage (pageRect p)
    :: (p.blocks.filterMap renderImageBlock
        ++ p.drawings.flatMap renderDrawing
        ++ renderText p.blocks)

/-- The z-order layer of a draw operation: background 0, raster image 1,
vector primitive 2, text 3. -/
def layer : DrawOp → ℕ
  | DrawOp.insertBgImage _ => 0
  | DrawOp.insertImage _ _ => 1
  | DrawOp.drawLine _ _ _ _ => 2
  | DrawOp.drawRect _ _ _ _ => 2
  | DrawOp.drawPolyline _ _ _ => 2
  | DrawOp.drawBezier _ _ _ => 2
  | DrawOp.insertTextbox _ _ _ _ _ _ _ => 3
  | DrawOp.insertText _ _ _ _ _ => 3

/-- A raster image in 8-bit RGB: dimensions in pixels and a pixel function
giving the value of each channel (PIL images after `convert("RGB")`). -/
@[ext]
structure Img where
  width : ℕ
  height : ℕ
  pix : ℕ → ℕ → Fin 3 → ℕ

/-- `pil_img.resize((w, h))`: the output has exactly the requested pixel
dimensions. The resampling kernel is internal to the external imaging
library; dimensions are its contract, pixels are sampled from the source
grid. -/
def Img.resize (img : Img) (w h : ℕ) : Img :=
  ⟨w, h, fun x y c => img.pix (x * img.width / w) (y * img.height / h) c⟩

/-- `np.clip(v, 0, 255).astype(np.uint8)` for one sample: clamp to the byte
range, then truncate to an integer (the value is nonnegative after the
clamp, so truncation is the floor). -/
def npUint8 (q : ℚ) : ℕ :=
  (⌊max 0 (min 255 q)⌋).toNat

/-- The grain layer of `apply_blur_and_grain` (`addimage.py` lines 19-23):
per-pixel, per-channel noise samples clipped to bytes, at the blurred
image's dimensions. The normal random source is external; it enters as the
`noise` sample function. -/
def grainImage (noise : ℕ → ℕ → Fin 3 → ℚ) (w h : ℕ) : Img :=
  ⟨w, h, fun x y c => npUint8 (noise x y c)⟩

/-- PIL `Image.blend(im1, im2, alpha)`: per channel,
`im1 + alpha * (im2 - im1)` rounded back to 8-bit. -/
def Image.blend (im1 im2 : Img) (alpha : ℚ) : Img :=
  ⟨im1.width, im1.height, fun x y c =>
    (⌊(im1.pix x y c : ℚ) + alpha * ((im2.pix x y c : ℚ) - (im1.pix x y c : ℚ)) + 1/2⌋).toNat⟩

/-- `apply_blur_and_grain` from `addimage.py` lines 16-24: Gaussian-blur the
input (the blur kernel itself is the external imaging library, passed in as
`gaussianBlur`), synthesize a same-size grain layer from the external noise
source, and alpha-blend with `grain_strength` as the grain weight. -/
def apply_blur_and_grain (gaussianBlur : ℚ → Img → Img) (noise : ℕ → ℕ → Fin 3 → ℚ)
    (pil_img : Img) (blur_radius : ℚ) (grain_strength : ℚ) : Img :=
  let blurred := gaussianBlur blur_radius pil_img
  let grain := grainImage noise blurred.width blurred.height
  Image.blend blurred grain grain_strength

/-- Python `int()` on a rational: truncation toward zero. -/
def pyInt (q : ℚ) : ℤ :=
  if 0 ≤ q then ⌊q⌋ else -⌊-q⌋

/-- The per-page background of `addimage.py` line 48:
`apply_blur_and_grain(bg.resize((int(w), int(h))))` with the default
`blur_radius=10` and `grain_strength=0.20`. -/
def pageBackground (gaussianBlur : ℚ → Img → Img) (noise : ℕ → ℕ → Fin 3 → ℚ)
    (bg : Img) (p : SrcPage) : Img :=
  apply_blur_and_grain gaussianBlur noise
    (bg.resize (pyInt p.width).toNat (pyInt p.height).toNat) 10 (1/5)

/-- A document-level event of `stylise_pdf`: creating one output page (with
its dimensions and the draw operations emitted onto it), or the single
`dst.save(out_path, deflate=True, clean=True, garbage=4)` call. -/
inductive DocEvent
  | newPage (width height : ℚ) (ops : List DrawOp)
  | save (deflate clean : Bool) (garbage : ℕ)
deriving DecidableEq

/-- The document-level trace of `stylise_pdf` (`addimage.py` lines 38-152):
one fresh output page per source page, in source order, each created with
the source page's dimensions, followed by the single save call. -/
def stylise_pdf (src : List SrcPage) : List DocEvent :=
  (src.map fun p => DocEvent.newPage p.width p.height (renderPage p))
    ++ [DocEvent.save true true 4]

/-- The page dimensions carried by a page-creation event. -/
def eventDims : DocEvent → Option (ℚ × ℚ)
  | DocEvent.newPage w h _ => some (w, h)
  | DocEvent.save _ _ _ => none

/-- Whether a document event is the save call. -/
def isSave : DocEvent → Bool
  | DocEvent.save _ _ _ => true
  | _ => false

/-- The color attached to a text operation, if it is one. -/
def opTextColor : DrawOp → Option Color
  | DrawOp.insertTextbox _ _ _ _ c _ _ => some c
  | DrawOp.insertText _ _ _ _ c => some c
  | _ => none

/-- A span rotated by a positive shear of 1/2, for concrete evaluation. -/
def rotSpan : Span :=
  ⟨"Hi", 12, "Helvetica", some 0, ⟨5, 6⟩, ⟨0, 0, 10, 10⟩, some (1, 1/2, 0, 1, 0, 0)⟩

/-- A span carrying no transform matrix, for concrete evaluation. -/
def plainSpan : Span :=
  ⟨"Hello", 11, "Arial", none, ⟨3, 4⟩, ⟨0, 0, 5, 5⟩, none⟩

/-- A rectangle segment with a malformed single-point set, for concrete
evaluation. -/
def badRectSeg : SegItem := ⟨some "re", PtsVal.plist [⟨0, 0⟩]⟩

/-- A well-formed line segment, for concrete evaluation. -/
def lineSeg : SegItem := ⟨some "l", PtsVal.plist [⟨0, 0⟩, ⟨1, 1⟩]⟩

/-- A dimension-preserving identity blur, standing in for the external
Gaussian blur in concrete evaluation. -/
def idBlur : ℚ → Img → Img := fun _ img => img

/-- A constant noise source, for concrete evaluation. -/
def zeroNoise : ℕ → ℕ → Fin 3 → ℚ := fun _ _ _ => 0

/-- A small solid-gray cover image, for concrete evaluation. -/
def grayCover : Img := ⟨4, 4, fun _ _ _ => 128⟩

/-- An empty source page with fractional width, for concrete evaluation. -/
def onePage : SrcPage := ⟨7/2, 2, [], [], []⟩

/-- Every byte extracted by masking with 255 yields a channel in the unit
interval after division by 255. -/
lemma byte_channel_mem (k : ℕ) (hk : k ≤ 255) :
    0 ≤ ((k : ℚ) / 255) ∧ ((k : ℚ) / 255) ≤ 1 := by
  constructor
  · positivity
  · rw [div_le_one (by norm_num)]
    exact_mod_cast hk

/-- C4: the color decoder is a pure total function: null maps to white, an
integer is unpacked as 0x00RRGGBB with blue in the low byte, each byte
divided by 255, so every channel lies in [0,1]; the three primary packed
values decode to the pure primary colors. -/
theorem int_to_rgb_float_spec (c : ℕ) :
    int_to_rgb_float none = (1, 1, 1)
    ∧ int_to_rgb_float (some c)
        = ((((c >>> 16) &&& 255 : ℕ) : ℚ) / 255,
           (((c >>> 8) &&& 255 : ℕ) : ℚ) / 255,
           ((c &&& 255 : ℕ) : ℚ) / 255)
    ∧ (0 ≤ (int_to_rgb_float (some c)).1 ∧ (int_to_rgb_float (some c)).1 ≤ 1)
    ∧ (0 ≤ (int_to_rgb_float (some c)).2.1 ∧ (int_to_rgb_float (some c)).2.1 ≤ 1)
    ∧ (0 ≤ (int_to_rgb_float (some c)).2.2 ∧ (int_to_rgb_float (some c)).2.2 ≤ 1)
    ∧ int_to_rgb_float (some 0xFF0000) = (1, 0, 0)
    ∧ int_to_rgb_float (some 0x00FF00) = (0, 1, 0)
    ∧ int_to_rgb_float (some 0x0000FF) = (0, 0, 1)
    := by
  refine ⟨rfl, rfl, ?_, ?_, ?_, ?_, ?_, ?_⟩
  · exact byte_channel_mem _ Nat.and_le_right
  · exact byte_channel_mem _ Nat.and_le_right
  · exact byte_channel_mem _ Nat.and_le_right
  · simp [int_to_rgb_float]
    all_goals decide
  · simp [int_to_rgb_float]
    all_goals decide
  · simp [int_to_rgb_float]
    all_goals decide

/-- C2: the render color of every span is decided by the near-black test
with fixed tolerance 5/255 — if every channel of the decoded color is at
most 5/255 the span renders white, otherwise it keeps exactly its decoded
color; the emitted text operation carries exactly that color, which is
never a blended intermediate; decoded black maps to white and
(0.8, 0.1, 0.1) is kept unchanged. -/
theorem span_render_color (s : Span) (orig : Color) :
    opTextColor (renderSpan s) = some (spanRenderColor s)
    ∧ spanRenderColor s = chooseColor (int_to_rgb_float (some (s.color.getD 0)))
    ∧ chooseColor orig
        = (if orig.1 ≤ 5/255 ∧ orig.2.1 ≤ 5/255 ∧ orig.2.2 ≤ 5/255 then (1, 1, 1) else orig)
    ∧ (chooseColor orig = orig ∨ chooseColor orig = (1, 1, 1))
    ∧ chooseColor (0, 0, 0) = (1, 1, 1)
    ∧ chooseColor (4/5, 1/10, 1/10) = (4/5, 1/10, 1/10)
    := by
  refine ⟨?_, rfl, ?_, ?_, ?_, ?_⟩
  · unfold renderSpan
    dsimp only
    split <;> rfl
  · rcases orig with ⟨r, g, b⟩
    unfold chooseColor is_non_black epsilon
    rcases le_or_lt r (5/255) with h1 | h1 <;>
      rcases le_or_lt g (5/255) with h2 | h2 <;>
      rcases le_or_lt b (5/255) with h3 | h3 <;>
      simp [h1, h2, h3, not_lt.mpr, not_le.mpr]
  · unfold chooseColor
    split
    · exact Or.inl rfl
    · exact Or.inr rfl
  · norm_num [chooseColor, is_non_black, epsilon]
  · norm_num [chooseColor, is_non_black, epsilon]

/-- C6: stroke-color resolution yields white for an absent color, the
triplet itself for a triplet, the packed-integer decoding for an integer,
and white for any other representation; stroke width falls back from the
width field to the linewidth field to 1.0; every case is total. -/
theorem resolve_stroke_spec (r g b : ℚ) (n : ℕ) (cv : ColorVal) (w lw : ℚ)
    (olw : Option ℚ) (items : List SegItem) :
    resolveDrawColor ColorVal.absent = (1, 1, 1)
    ∧ resolveDrawColor (ColorVal.triplet r g b) = (r, g, b)
    ∧ resolveDrawColor (ColorVal.packed n) = int_to_rgb_float (some n)
    ∧ resolveDrawColor ColorVal.other = (1, 1, 1)
    ∧ resolveDrawWidth ⟨cv, some w, olw, items⟩ = w
    ∧ resolveDrawWidth ⟨cv, none, some lw, items⟩ = lw
    ∧ resolveDrawWidth ⟨cv, none, none, items⟩ = 1
    := ⟨rfl, rfl, rfl, rfl, rfl, rfl, rfl⟩

/-- Case analysis of the four-way font-bucket dispatch over the three
substring tests. -/
lemma font_bucket_cases (b i o : Bool) :
    ((if b ∧ (i ∨ o) then "Times-BoldItalic"
      else if b then "Times-Bold"
      else if i ∨ o then "Times-Italic"
      else "Times-Roman") = "Times-BoldItalic" ↔ (b ∧ (i ∨ o)))
    ∧ ((if b ∧ (i ∨ o) then "Times-BoldItalic"
      else if b then "Times-Bold"
      else if i ∨ o then "Times-Italic"
      else "Times-Roman") = "Times-Bold" ↔ (b ∧ ¬(i ∨ o)))
    ∧ ((if b ∧ (i ∨ o) then "Times-BoldItalic"
      else if b then "Times-Bold"
      else if i ∨ o then "Times-Italic"
      else "Times-Roman") = "Times-Italic" ↔ ((i ∨ o) ∧ ¬b))
    ∧ ((if b ∧ (i ∨ o) then "Times-BoldItalic"
      else if b then "Times-Bold"
      else if i ∨ o then "Times-Italic"
      else "Times-Roman") = "Times-Roman" ↔ (¬b ∧ ¬(i ∨ o)))
    := by cases b <;> cases i <;> cases o <;> decide

/-- C5: the font classifier is a case-insensitive substring match: bold plus
italic-or-oblique gives the bold-italic bucket, bold alone the bold bucket,
italic-or-oblique alone the italic bucket, and anything else the regular
bucket, never failing; the four sample names classify as stated. -/
theorem map_font_spec (s : String) :
    (map_font s = "Times-BoldItalic"
      ↔ (hasSub "bold".toList (s.toList.map Char.toLower)
          ∧ (hasSub "italic".toList (s.toList.map Char.toLower)
             ∨ hasSub "oblique".toList (s.toList.map Char.toLower))))
    ∧ (map_font s = "Times-Bold"
      ↔ (hasSub "bold".toList (s.toList.map Char.toLower)
          ∧ ¬(hasSub "italic".toList (s.toList.map Char.toLower)
             ∨ hasSub "oblique".toList (s.toList.map Char.toLower))))
    ∧ (map_font s = "Times-Italic"
      ↔ ((hasSub "italic".toList (s.toList.map Char.toLower)
             ∨ hasSub "oblique".toList (s.toList.map Char.toLower))
          ∧ ¬hasSub "bold".toList (s.toList.map Char.toLower)))
    ∧ (map_font s = "Times-Roman"
      ↔ (¬hasSub "bold".toList (s.toList.map Char.toLower)
          ∧ ¬(hasSub "italic".toList (s.toList.map Char.toLower)
             ∨ hasSub "oblique".toList (s.toList.map Char.toLower))))
    ∧ map_font "Arial-BoldOblique" = "Times-BoldItalic"
    ∧ map_font "Helvetica-Bold" = "Times-Bold"
    ∧ map_font "Foo-Italic" = "Times-Italic"
    ∧ map_font "Times New Roman" = "Times-Roman"
    := by
  have h := font_bucket_cases (hasSub "bold".toList (s.toList.map Char.toLower))
      (hasSub "italic".toList (s.toList.map Char.toLower))
      (hasSub "oblique".toList (s.toList.map Char.toLower))
  exact ⟨h.1, h.2.1, h.2.2.1, h.2.2.2, by decide, by decide, by decide, by decide⟩

/-- C3: a span whose transform shear component (index 1) exceeds 1e-3 in
absolute value renders as a box-anchored left-aligned textbox over its
bounding box, rotated exactly +90 degrees when the component is positive and
-90 when negative; a component of absolute value at most 1e-3 renders as
horizontal point-anchored text at the span origin with its declared size and
resolved font and color. -/
theorem span_rotation (s : Span) (m : ℚ × ℚ × ℚ × ℚ × ℚ × ℚ)
    (hm : s.matrix = some m) :
    (1/1000 < m.2.1 →
      renderSpan s = DrawOp.insertTextbox s.bbox s.text (map_font s.font) s.size
        (spanRenderColor s) 90 fitz_TEXT_ALIGN_LEFT)
    ∧ (m.2.1 < -(1/1000) →
      renderSpan s = DrawOp.insertTextbox s.bbox s.text (map_font s.font) s.size
        (spanRenderColor s) (-90) fitz_TEXT_ALIGN_LEFT)
    ∧ (|m.2.1| ≤ 1/1000 →
      renderSpan s = DrawOp.insertText s.origin s.text (map_font s.font) s.size
        (spanRenderColor s))
    := by
  unfold renderSpan
  rw [hm]
  dsimp only [Option.getD]
  refine ⟨?_, ?_, ?_⟩
  · intro h
    rw [if_pos (lt_of_lt_of_le h (le_abs_self _)), if_pos (lt_trans (by norm_num) h)]
  · intro h
    rw [if_pos (lt_of_lt_of_le (by linarith) (neg_le_abs _)), if_neg (by intro h2; linarith)]
  · intro h
    rw [if_neg (not_lt.mpr h)]

/-- Witness for C3: a span with shear 1/2 renders as a textbox rotated by
+90 degrees. -/
theorem span_rotation_witness :
    renderSpan rotSpan = DrawOp.insertTextbox rotSpan.bbox rotSpan.text
      (map_font rotSpan.font) rotSpan.size (spanRenderColor rotSpan) 90
      fitz_TEXT_ALIGN_LEFT :=
  (span_rotation rotSpan (1, 1/2, 0, 1, 0, 0) rfl).1 (by norm_num)

/-- C10: a span carrying no transform matrix gets the identity matrix
[1, 0, 0, 1, 0, 0], whose shear component is 0, so it always renders as
horizontal point-anchored text at its origin — a missing matrix can never
trigger the rotated textbox path. -/
theorem missing_matrix_horizontal (s : Span) (h : s.matrix = none) :
    s.matrix.getD (1, 0, 0, 1, 0, 0) = (1, 0, 0, 1, 0, 0)
    ∧ renderSpan s = DrawOp.insertText s.origin s.text (map_font s.font) s.size
        (spanRenderColor s)
    := by
  rw [h]
  refine ⟨rfl, ?_⟩
  unfold renderSpan
  rw [h]
  dsimp only [Option.getD]
  rw [if_neg (by norm_num)]

/-- Witness for C10: a concrete span without a matrix renders as horizontal
point-anchored text. -/
theorem missing_matrix_horizontal_witness :
    plainSpan.matrix.getD (1, 0, 0, 1, 0, 0) = (1, 0, 0, 1, 0, 0)
    ∧ renderSpan plainSpan = DrawOp.insertText plainSpan.origin plainSpan.text
        (map_font plainSpan.font) plainSpan.size (spanRenderColor plainSpan) :=
  missing_matrix_horizontal plainSpan rfl

/-- Any operation emitted by the image phase sits on layer 1. -/
lemma layer_of_renderImageBlock {b : Block} {op : DrawOp}
    (h : renderImageBlock b = some op) : layer op = 1 := by
  unfold renderImageBlock at h
  repeat' split at h
  all_goals first
    | (cases h; rfl)
    | simp at h

/-- Any operation emitted by the vector phase sits on layer 2. -/
lemma layer_of_renderSeg {c : Color} {w : ℚ} {it : SegItem} {op : DrawOp}
    (h : renderSeg c w it = some op) : layer op = 2 := by
  unfold renderSeg at h
  split at h <;>
    simp_all [mkPolylineOp, mkBezierOp, Option.map_eq_some'] <;>
    first
      | (cases h; rfl)
      | (rcases h with ⟨r, hr, rfl⟩; rfl)
      | (split_ifs at h <;> simp_all; cases h; rfl)

/-- Any operation emitted by the text phase sits on layer 3. -/
lemma layer_of_renderSpan (s : Span) : layer (renderSpan s) = 3 := by
  unfold renderSpan
  dsimp only
  split <;> rfl

/-- A list of naturals all equal to one value is sorted. -/
lemma sorted_of_all_eq (l : List ℕ) (c : ℕ) (h : ∀ x ∈ l, x = c) :
    l.Sorted (· ≤ ·) := by
  induction l with
  | nil => exact List.sorted_nil
  | cons a t ih =>
      rw [List.sorted_cons]
      refine ⟨fun b hb => ?_, ih fun x hx => h x (List.mem_cons_of_mem _ hx)⟩
      rw [h a (List.mem_cons_self a t), h b (List.mem_cons_of_mem _ hb)]

/-- C1: on every output page the draw operations appear in weakly increasing
layer order — the background insert comes first, every image-phase operation
is a raster image (layer 1), every vector-phase operation is a vector
primitive (layer 2) and every text-phase operation is text (layer 3) — for
every possible source content, regardless of the ordering of blocks,
drawings and images inside it. -/
theorem z_order_per_page (p : SrcPage) :
    List.Sorted (· ≤ ·) ((renderPage p).map layer)
    ∧ (renderPage p).head? = some (DrawOp.insertBgImage (pageRect p))
    ∧ (((p.blocks.filterMap renderImageBlock).map layer).all fun x => x == 1)
    ∧ (((p.drawings.flatMap renderDrawing).map layer).all fun x => x == 2)
    ∧ (((renderText p.blocks).map layer).all fun x => x == 3)
    := by
  have himg : ∀ x ∈ (p.blocks.filterMap renderImageBlock).map layer, x = 1 := by
    intro x hx
    rcases List.mem_map.mp hx with ⟨op, hop, rfl⟩
    rcases List.mem_filterMap.mp hop with ⟨b, _, hb⟩
    exact layer_of_renderImageBlock hb
  have hvec : ∀ x ∈ (p.drawings.flatMap renderDrawing).map layer, x = 2 := by
    intro x hx
    rcases List.mem_map.mp hx with ⟨op, hop, rfl⟩
    rcases List.mem_flatMap.mp hop with ⟨d, _, hd⟩
    rcases List.mem_filterMap.mp hd with ⟨it, _, hit⟩
    exact layer_of_renderSeg hit
  have htxt : ∀ x ∈ (renderText p.blocks).map layer, x = 3 := by
    intro x hx
    rcases List.mem_map.mp hx with ⟨op, hop, rfl⟩
    unfold renderText at hop
    rcases List.mem_flatMap.mp hop with ⟨b, _, hb⟩
    rcases List.mem_flatMap.mp hb with ⟨ln, _, hln⟩
    rcases List.mem_map.mp hln with ⟨sp, _, rfl⟩
    exact layer_of_renderSpan sp
  refine ⟨?_, rfl, ?_, ?_, ?_⟩
  · unfold renderPage
    rw [List.map_cons, List.sorted_cons]
    constructor
    · intro b hb
      simp only [List.map_append, List.mem_append] at hb
      rcases hb with (hb | hb) | hb
      · rw [himg b hb]; exact Nat.zero_le _
      · rw [hvec b hb]; exact Nat.zero_le _
      · rw [htxt b hb]; exact Nat.zero_le _
    · rw [List.map_append, List.map_append]
      rw [List.Sorted, List.pairwise_append]
      refine ⟨?_, ?_, ?_⟩
      · rw [List.pairwise_append]
        refine ⟨sorted_of_all_eq _ 1 himg, sorted_of_all_eq _ 2 hvec, ?_⟩
        intro a ha b hb
        rw [himg a ha, hvec b hb]
        norm_num
      · exact sorted_of_all_eq _ 3 htxt
      · intro a ha b hb
        rw [htxt b hb]
        rw [List.mem_append] at ha
        rcases ha with ha | ha
        · rw [himg a ha]; norm_num
        · rw [hvec a ha]; norm_num
  · rw [List.all_eq_true]
    intro x hx
    simpa using himg x hx
  · rw [List.all_eq_true]
    intro x hx
    simpa using hvec x hx
  · rw [List.all_eq_true]
    intro x hx
    simpa using htxt x hx

/-- A rectangle segment whose point set fails rect construction produces no
draw operation. -/
lemma renderSeg_re_none {col : Color} {w : ℚ} {it : SegItem} {ps : List Point}
    (htag : it.tag = some "re") (hpts : it.pts = PtsVal.plist ps)
    (hbad : mkRect ps = none) : renderSeg col w it = none := by
  rcases it with ⟨tag, pv⟩
  cases htag
  cases hpts
  simp [renderSeg, hbad]

/-- Skipping elements that produce nothing: filterMap over a list with a
none-producing element in the middle. -/
lemma filterMap_skip {α β : Type} (f : α → Option β) (x : α) (hx : f x = none)
    (pre suf : List α) :
    (pre ++ x :: suf).filterMap f = pre.filterMap f ++ suf.filterMap f := by
  rw [List.filterMap_append, List.filterMap_cons, hx]

/-- C7: a rectangle segment is drawn unfilled with stroke width
max(0.5, resolved width) when its point set constructs a rectangle; when
construction fails the single segment is skipped while every other segment
of the same drawing group and the whole rest of the page render exactly as
they would without it. -/
theorem rect_segment_skip (col : Color) (w : ℚ) (pre suf : List SegItem)
    (it : SegItem) (ps : List Point) (htag : it.tag = some "re")
    (hpts : it.pts = PtsVal.plist ps) (hbad : mkRect ps = none) :
    List.filterMap (renderSeg col w) (pre ++ it :: suf)
        = List.filterMap (renderSeg col w) pre ++ List.filterMap (renderSeg col w) suf
    ∧ (∀ (W H : ℚ) (bs : List Block) (cv : ColorVal) (ow olw : Option ℚ)
         (ds1 ds2 : List Drawing) (links : List Rect),
        renderPage ⟨W, H, bs, ds1 ++ ⟨cv, ow, olw, pre ++ it :: suf⟩ :: ds2, links⟩
          = renderPage ⟨W, H, bs, ds1 ++ ⟨cv, ow, olw, pre ++ suf⟩ :: ds2, links⟩)
    ∧ (∀ (ps2 : List Point) (r : Rect), mkRect ps2 = some r →
        renderSeg col w ⟨some "re", PtsVal.plist ps2⟩
          = some (DrawOp.drawRect r col none (max (1/2) w)))
    := by
  refine ⟨filterMap_skip _ it (renderSeg_re_none htag hpts hbad) pre suf, ?_, ?_⟩
  · intro W H bs cv ow olw ds1 ds2 links
    unfold renderPage renderDrawing
    simp only [List.flatMap_append, List.flatMap_cons, resolveDrawWidth]
    rw [filterMap_skip _ it (renderSeg_re_none htag hpts hbad) pre suf,
        List.filterMap_append]
    rfl
  · intro ps2 r hr
    simp [renderSeg, hr]

/-- Witness for C7: a malformed single-point rectangle segment is skipped
while the following line segment still renders. -/
theorem rect_segment_skip_witness :
    List.filterMap (renderSeg (1, 1, 1) 1) ([] ++ badRectSeg :: [lineSeg])
      = List.filterMap (renderSeg (1, 1, 1) 1) []
        ++ List.filterMap (renderSeg (1, 1, 1) 1) [lineSeg] :=
  (rect_segment_skip (1, 1, 1) 1 [] [lineSeg] badRectSeg [⟨0, 0⟩] rfl rfl rfl).1

/-- Rounding an 8-bit value after adding a half does not change it. -/
lemma floor_nat_add_half (n : ℕ) : ⌊(n : ℚ) + 1/2⌋ = n := by
  rw [Int.floor_eq_iff]
  constructor
  · push_cast
    linarith
  · push_cast
    linarith

/-- Alpha-blending with weight 0 returns the first image. -/
lemma blend_zero (a b : Img) : Image.blend a b 0 = a := by
  refine Img.ext rfl rfl ?_
  funext x y c
  show (⌊(a.pix x y c : ℚ) + 0 * ((b.pix x y c : ℚ) - (a.pix x y c : ℚ)) + 1/2⌋).toNat
      = a.pix x y c
  rw [zero_mul, add_zero, floor_nat_add_half, Int.toNat_natCast]

/-- Alpha-blending with weight 1 returns the second image's pixels. -/
lemma blend_one (a b : Img) : (Image.blend a b 1).pix = b.pix := by
  funext x y c
  show (⌊(a.pix x y c : ℚ) + 1 * ((b.pix x y c : ℚ) - (a.pix x y c : ℚ)) + 1/2⌋).toNat
      = b.pix x y c
  rw [one_mul, show (a.pix x y c : ℚ) + ((b.pix x y c : ℚ) - (a.pix x y c : ℚ)) + 1/2
        = (b.pix x y c : ℚ) + 1/2 by ring, floor_nat_add_half, Int.toNat_natCast]

/-- C8: for any dimension-preserving blur and any noise source, the
synthesized background has exactly the requested integer dimensions
independently of the cover image's own size — and the per-page background
has the page's truncated integer dimensions; at grain strength 0 the output
equals the blurred image exactly and at grain strength 1 it equals the
quantized grain layer alone. -/
theorem background_spec
    (gaussianBlur : ℚ → Img → Img) (noise : ℕ → ℕ → Fin 3 → ℚ)
    (cover bg : Img) (w h : ℕ) (radius strength : ℚ) (p : SrcPage)
    (hblur : ∀ (r : ℚ) (img : Img),
      (gaussianBlur r img).width = img.width ∧ (gaussianBlur r img).height = img.height) :
    ((apply_blur_and_grain gaussianBlur noise (cover.resize w h) radius strength).width = w
     ∧ (apply_blur_and_grain gaussianBlur noise (cover.resize w h) radius strength).height = h)
    ∧ ((pageBackground gaussianBlur noise bg p).width = (pyInt p.width).toNat
       ∧ (pageBackground gaussianBlur noise bg p).height = (pyInt p.height).toNat)
    ∧ (∀ img : Img, apply_blur_and_grain gaussianBlur noise img radius 0 = gaussianBlur radius img)
    ∧ (∀ img : Img, apply_blur_and_grain gaussianBlur noise img radius 1
        = grainImage noise (gaussianBlur radius img).width (gaussianBlur radius img).height)
    := by
  refine ⟨⟨?_, ?_⟩, ⟨?_, ?_⟩, ?_, ?_⟩
  · exact (hblur radius (cover.resize w h)).1
  · exact (hblur radius (cover.resize w h)).2
  · exact (hblur 10 _).1
  · exact (hblur 10 _).2
  · intro img
    exact blend_zero (gaussianBlur radius img) _
  · intro img
    unfold apply_blur_and_grain
    refine Img.ext rfl rfl ?_
    exact blend_one (gaussianBlur radius img) _

/-- Witness for C8: with an identity blur and constant noise, a 4x4 gray
cover resized to the requested 3x2 yields a 3x2 background. -/
theorem background_spec_witness :
    (apply_blur_and_grain idBlur zeroNoise (grayCover.resize 3 2) 10 (1/5)).width = 3
    ∧ (apply_blur_and_grain idBlur zeroNoise (grayCover.resize 3 2) 10 (1/5)).height = 2 :=
  (background_spec idBlur zeroNoise grayCover grayCover 3 2 10 (1/5) onePage
    (fun _ _ => ⟨rfl, rfl⟩)).1

/-- C9: the document trace creates exactly one output page per source page,
in source order, each with the source page's exact dimensions, and ends with
the single save call issued after all pages — no partial or incremental
save. -/
theorem document_structure (src : List SrcPage) :
    (stylise_pdf src).filterMap eventDims = src.map (fun p => (p.width, p.height))
    ∧ List.countP isSave (stylise_pdf src) = 1
    ∧ (stylise_pdf src).getLast? = some (DocEvent.save true true 4)
    ∧ (stylise_pdf src).length = src.length + 1
    := by
  refine ⟨?_, ?_, ?_, ?_⟩
  · unfold stylise_pdf
    rw [List.filterMap_append, List.filterMap_map]
    have hz : List.filterMap eventDims [DocEvent.save true true 4] = [] := rfl
    rw [hz, List.append_nil]
    induction src with
    | nil => rfl
    | cons a t ih => simpa [List.filterMap_cons, Function.comp, eventDims] using ih
  · unfold stylise_pdf
    rw [List.countP_append]
    simp [isSave, List.countP_map, Function.comp]
  · unfold stylise_pdf
    exact List.getLast?_concat _
  · unfold stylise_pdf
    simp

end PrettyPapers
